import Mathlib

/-!
Shallow embedding of the real-time collaboration core of the CollabCar
workspace (src/src/components/workspace/ProjectWorkspace.tsx, the two
Socket.IO relay handlers, and src/data/configurator).

Conventions of the embedding:
* JS objects used as string-keyed maps become association lists with the
  replace-in-place-or-append update of object spread assignment.
* JS numbers carrying coordinates become rationals; Math.round is the
  Mathlib round function (floor of x + 1/2, which matches Math.round on
  all rationals, including the half-up behaviour on negatives).
* Timestamps from Date.now() become naturals.  The comparisons
  now - seen < W agree with the JS semantics also when seen exceeds now,
  because both the truncated natural difference and the negative JS
  difference are below the window.
* undefined fields become none; a field that can be string or null is
  Option (Option String), where none is undefined and some none is null.
* Thrown TypeErrors become Except.error.
-/

namespace CollabCar

/-- Association-list read, mirroring obj[key] on a JS object. -/
def alistGet {α : Type} (l : List (String × α)) (k : String) : Option α :=
  (l.find? (fun p => p.1 == k)).map (fun p => p.2)

/-- Association-list write, mirroring the spread update of a JS object:
the existing key keeps its position and receives the new value, a new key
is appended at the end. -/
def alistSet {α : Type} : List (String × α) → String → α → List (String × α)
  | [], k, v => [(k, v)]
  | p :: rest, k, v => if p.1 == k then (k, v) :: rest else p :: alistSet rest k v

/-- Keys of an association list, in order. -/
def alistKeys {α : Type} (l : List (String × α)) : List String :=
  l.map (fun p => p.1)

theorem alistKeys_cons {α : Type} (p : String × α) (l : List (String × α)) :
    alistKeys (p :: l) = p.1 :: alistKeys l := rfl

/-- CarConfiguration from src/data/configurator. -/
structure CarConfiguration where
  model : String
  brand : String
  basePrice : Int
  selections : List (String × String)
deriving DecidableEq, Repr

/-- A base model spec: attribute names mapped to the ordered option names
of that attribute (the price deltas are irrelevant to the claims). -/
structure BaseModel where
  name : String
  brand : String
  basePrice : Int
  options : List (String × List String)
deriving DecidableEq, Repr

/-- VariantSpec from src/data/configurator. -/
structure VariantSpec where
  model : String
  brand : String
  variantName : String
  selections : List (String × String)
deriving DecidableEq, Repr

/-- getBaseModel from src/data/configurator: falsy name or missed lookup
falls back to the first base model; none only when the list is empty. -/
def getBaseModel (models : List BaseModel) (modelName : String) : Option BaseModel :=
  if modelName = "" then models.head?
  else
    match models.find? (fun m => m.name == modelName) with
    | some m => some m
    | none => models.head?

/-- getOptionsForModel from src/data/configurator. -/
def getOptionsForModel (models : List BaseModel) (modelName : String) :
    List (String × List String) :=
  match getBaseModel models modelName with
  | some m => m.options
  | none => []

/-- createConfigFromVariant from src/data/configurator: for every attribute
of the resolved base model, the selection is the variant choice, else the
first option, else the empty string. -/
def createConfigFromVariant (models : List BaseModel) (variants : List VariantSpec)
    (modelName : String) (variantName : Option String) : Option CarConfiguration :=
  (getBaseModel models modelName).map (fun model =>
    let variant := variantName.bind (fun vn =>
      (variants.filter (fun v => v.model == modelName)).find? (fun v => v.variantName == vn))
    { model := model.name
      brand := model.brand
      basePrice := model.basePrice
      selections := model.options.foldl (fun sels ao =>
        alistSet sels ao.1
          (((variant.bind (fun v => alistGet v.selections ao.1)).or ao.2.head?).getD "")) [] })

/-- The document part of updateConfig in ProjectWorkspace: spread the prior
selections and overwrite one attribute. -/
def updateConfigNext (cfg : CarConfiguration) (attr value : String) : CarConfiguration :=
  { cfg with selections := alistSet cfg.selections attr value }

/-- applyRemoteConfig: the config branch of handleIncoming replaces the
authoritative document with the received one, unconditionally. -/
def applyRemoteConfig (_current incoming : CarConfiguration) : CarConfiguration :=
  incoming

/-- CommentItem from ProjectWorkspace. -/
structure CommentItem where
  id : String
  attr : String
  user : String
  text : String
  timestamp : Nat
deriving DecidableEq, Repr

/-- ActivityItem from ProjectWorkspace; the user field keeps the JS
possibility of an undefined username coming off the wire. -/
structure ActivityItem where
  id : String
  message : String
  user : Option String
  timestamp : Nat
deriving DecidableEq, Repr

/-- CursorPeer from ProjectWorkspace.  Coordinates are optional because a
malformed cursor event assigns undefined coordinates through the spread in
upsertPeer; focus distinguishes undefined (none) from null (some none). -/
structure CursorPeer where
  id : String
  username : Option String
  color : String
  x : Option ℚ
  y : Option ℚ
  lastSeen : Nat
  focus : Option (Option String)
deriving DecidableEq, Repr

/-- ProjectMeta from ProjectWorkspace. -/
structure ProjectMeta where
  title : String
  description : Option String
  baseModel : String
deriving DecidableEq, Repr

/-- Partial ProjectMeta carried by a project-meta event. -/
structure PartialMeta where
  title : Option String
  description : Option String
  baseModel : Option String
deriving DecidableEq, Repr

/-- The raw shape of a payload that is a JS object: every field the typed
union can carry, each possibly absent. -/
structure RawMessage where
  kind : Option String
  userId : Option String
  username : Option String
  x : Option ℚ
  y : Option ℚ
  field : Option (Option String)
  config : Option CarConfiguration
  comment : Option CommentItem
  project : Option PartialMeta
deriving DecidableEq, Repr

/-- An incoming payload: either not an object at all, or an object with
the raw fields above. -/
inductive Payload where
  | notObject : Payload
  | obj : RawMessage → Payload
deriving DecidableEq, Repr

/-- isCollabMessage from ProjectWorkspace: the payload is an object that
has kind and userId properties; nothing kind-specific is checked. -/
def isCollabMessage : Payload → Bool
  | .notObject => false
  | .obj raw => raw.kind.isSome && raw.userId.isSome

/-- COLOR_PALETTE from ProjectWorkspace, verbatim, in order.  Note that
the fifth and the seventeenth entries are both the string with code
F59E0B, so the 20 entries hold only 19 distinct colours. -/
def COLOR_PALETTE : List String :=
  ["#7C3AED", "#2563EB", "#0EA5E9", "#059669", "#F59E0B",
   "#EC4899", "#14B8A6", "#E11D48", "#8B5CF6", "#6366F1",
   "#10B981", "#F97316", "#EF4444", "#06B6D4", "#84CC16",
   "#A855F7", "#F59E0B", "#22D3EE", "#4ADE80", "#FB7185"]

/-- getColorForId from ProjectWorkspace: memoized per id; a new id takes
the first palette colour not currently in use, else an HSL colour whose
hue is the registry size times 137 modulo 360. -/
def getColorForId (registry : List (String × String)) (id : String) :
    String × List (String × String) :=
  match alistGet registry id with
  | some c => (c, registry)
  | none =>
    let used := registry.map (fun p => p.2)
    let nextColor := COLOR_PALETTE.find? (fun c => !(used.contains c))
    let fallbackHue := (registry.length * 137) % 360
    let color := nextColor.getD ("hsl(" ++ toString fallbackHue ++ " 70% 55%)")
    (color, registry ++ [(id, color)])

/-- The deduplication step of handleIncoming: drop if the same fingerprint
was seen less than 1500 ms ago, else record it now and keep at most the 32
newest cache entries. -/
def dedupAccept (cache : List (String × Nat)) (key : String) (now : Nat) :
    Bool × List (String × Nat) :=
  match cache.find? (fun e => e.1 == key && decide (now - e.2 < 1500)) with
  | some _ => (false, cache)
  | none => (true, ((key, now) :: cache).take 32)

/-- Rendering of Math.round of a possibly absent coordinate inside a
template string: a missing coordinate rounds to NaN. -/
def roundStr : Option ℚ → String
  | some q => toString (round q)
  | none => "NaN"

/-- JSON.stringify of a selections object with plain keys and values. -/
def stringifySelections (sels : List (String × String)) : String :=
  "\x7b" ++ String.intercalate ","
      (sels.map (fun p => "\"" ++ p.1 ++ "\":\"" ++ p.2 ++ "\"")) ++ "\x7d"

/-- Object.keys of a partial project meta, in the insertion order of the
meta literal built by the emitter. -/
def metaKeys (pm : PartialMeta) : List String :=
  (if pm.title.isSome then ["title"] else []) ++
  (if pm.description.isSome then ["description"] else []) ++
  (if pm.baseModel.isSome then ["baseModel"] else [])

/-- The fingerprint computation of handleIncoming.  Accessing the id of a
missing comment, the selections of a missing config, or the keys of a
missing project object throws. -/
def messageKey (kind uid : String) (raw : RawMessage) : Except String String :=
  if kind = "cursor" then
    .ok ("cursor-" ++ uid ++ "-" ++ roundStr raw.x ++ "-" ++ roundStr raw.y)
  else if kind = "focus" then
    .ok ("focus-" ++ uid ++ "-" ++ (raw.field.join.getD "null"))
  else if kind = "config" then
    match raw.config with
    | none => .error "TypeError: undefined config"
    | some c => .ok ("config-" ++ uid ++ "-" ++ stringifySelections c.selections)
  else if kind = "comment" then
    match raw.comment with
    | none => .error "TypeError: undefined comment"
    | some c => .ok ("comment-" ++ uid ++ "-" ++ c.id)
  else if kind = "project-meta" then
    match raw.project with
    | none => .error "TypeError: undefined project"
    | some pm => .ok ("meta-" ++ uid ++ "-" ++ String.intercalate "-" (metaKeys pm))
  else
    .ok (kind ++ "-" ++ uid)

/-- Timestamp order on comments, the comparator of the thread sort. -/
def tsLe (a b : CommentItem) : Prop := a.timestamp ≤ b.timestamp

instance : DecidableRel tsLe := fun a b => Nat.decLe a.timestamp b.timestamp

instance : IsTotal CommentItem tsLe := ⟨fun a b => Nat.le_total a.timestamp b.timestamp⟩

instance : IsTrans CommentItem tsLe := ⟨fun _ _ _ h1 h2 => Nat.le_trans h1 h2⟩

/-- The stable ascending-by-timestamp sort applied to comment threads. -/
def sortByTimestamp (l : List CommentItem) : List CommentItem :=
  List.insertionSort tsLe l

/-- The per-attribute body of upsertComment: drop any previous comment
with the same id, append the incoming one, sort ascending by timestamp,
keep the first 30. -/
def upsertThread (existing : List CommentItem) (incoming : CommentItem) : List CommentItem :=
  (sortByTimestamp (existing.filter (fun item => item.id != incoming.id) ++ [incoming])).take 30

/-- upsertComment from ProjectWorkspace, acting on the attribute map. -/
def upsertComment (comments : List (String × List CommentItem)) (incoming : CommentItem) :
    List (String × List CommentItem) :=
  alistSet comments incoming.attr
    (upsertThread ((alistGet comments incoming.attr).getD []) incoming)

/-- pushActivity from ProjectWorkspace: a new entry repeating the message
and user of the newest entry less than 1200 ms later is ignored; otherwise
it is prepended and the feed truncated to 12 entries. -/
def pushActivity (now : Nat) (freshId : String) (message : String) (user : Option String)
    (items : List ActivityItem) : List ActivityItem :=
  match items.head? with
  | some latest =>
    if latest.message == message && latest.user == user &&
        decide (now - latest.timestamp < 1200) then
      items
    else
      ({ id := freshId, message := message, user := user, timestamp := now } :: items).take 12
  | none =>
    ({ id := freshId, message := message, user := user, timestamp := now } :: items).take 12

/-- The update a cursor or focus branch hands to upsertPeer (everything of
a CursorPeer except the colour). -/
structure PeerUpdate where
  id : String
  username : Option String
  x : Option ℚ
  y : Option ℚ
  lastSeen : Nat
  focus : Option (Option String)
deriving DecidableEq, Repr

/-- Write a peer into the id-keyed peer record. -/
def setPeer : List CursorPeer → CursorPeer → List CursorPeer
  | [], p => [p]
  | q :: rest, p => if q.id == p.id then p :: rest else q :: setPeer rest p

/-- Find a peer by id. -/
def findPeer (peers : List CursorPeer) (id : String) : Option CursorPeer :=
  peers.find? (fun q => q.id == id)

/-- upsertPeer from ProjectWorkspace: every incoming field overrides the
stored peer (also when the incoming value is undefined); the colour is the
stored one, else a fresh one from getColorForId. -/
def upsertPeer (registry : List (String × String)) (peers : List CursorPeer)
    (inc : PeerUpdate) : List (String × String) × List CursorPeer :=
  let prev := findPeer peers inc.id
  let colorAndReg : String × List (String × String) :=
    match prev with
    | some p => (p.color, registry)
    | none => getColorForId registry inc.id
  let newPeer : CursorPeer :=
    { id := inc.id, username := inc.username, color := colorAndReg.1,
      x := inc.x, y := inc.y, lastSeen := inc.lastSeen, focus := inc.focus }
  (colorAndReg.2, setPeer peers newPeer)

/-- The client-side collaboration state touched by handleIncoming. -/
structure WorkspaceState where
  config : CarConfiguration
  peers : List CursorPeer
  colorRegistry : List (String × String)
  activity : List ActivityItem
  comments : List (String × List CommentItem)
  projectMeta : ProjectMeta
  recentMessages : List (String × Nat)
  hasRemoteConfig : Bool
  synced : Bool
deriving DecidableEq, Repr

/-- Template interpolation of a possibly undefined string. -/
def jsStr : Option String → String
  | some s => s
  | none => "undefined"

/-- The kind-dispatched apply step of handleIncoming, run after the guard
and the deduplication filter accepted the message. -/
def applyMessage (now : Nat) (freshId : String) (st : WorkspaceState)
    (kind uid : String) (raw : RawMessage) : WorkspaceState :=
  if kind = "cursor" then
    let prevFocus := (findPeer st.peers uid).bind (fun p => p.focus)
    let rp := upsertPeer st.colorRegistry st.peers
      { id := uid, username := raw.username, x := raw.x, y := raw.y,
        lastSeen := now, focus := prevFocus }
    { st with colorRegistry := rp.1, peers := rp.2 }
  else if kind = "config" then
    match raw.config with
    | some c =>
      { st with
        hasRemoteConfig := true
        config := applyRemoteConfig st.config c
        activity := pushActivity now freshId (jsStr raw.username ++ " adjusted the build")
          raw.username st.activity
        synced := true }
    | none => st
  else if kind = "focus" then
    let prev := findPeer st.peers uid
    let rp := upsertPeer st.colorRegistry st.peers
      { id := uid, username := raw.username,
        x := some ((prev.bind (fun p => p.x)).getD 0),
        y := some ((prev.bind (fun p => p.y)).getD 0),
        lastSeen := now, focus := raw.field }
    { st with colorRegistry := rp.1, peers := rp.2 }
  else if kind = "comment" then
    match raw.comment with
    | some c => { st with comments := upsertComment st.comments c }
    | none => st
  else if kind = "project-meta" then
    match raw.project with
    | some pm =>
      { st with projectMeta :=
        { title := pm.title.getD st.projectMeta.title
          description := pm.description.or st.projectMeta.description
          baseModel := pm.baseModel.getD st.projectMeta.baseModel } }
    | none => st
  else
    st

/-- handleIncoming from ProjectWorkspace: shape guard, self-echo filter,
fingerprint (which can throw), deduplication, then the kind branches. -/
def handleIncoming (selfId : String) (now : Nat) (freshId : String)
    (st : WorkspaceState) (p : Payload) : Except String WorkspaceState :=
  match p with
  | .notObject => .ok st
  | .obj raw =>
    match raw.kind, raw.userId with
    | some kind, some uid =>
      if uid = selfId then .ok st
      else
        match messageKey kind uid raw with
        | .error e => .error e
        | .ok key =>
          match dedupAccept st.recentMessages key now with
          | (false, _) => .ok st
          | (true, cache) =>
            .ok (applyMessage now freshId { st with recentMessages := cache } kind uid raw)
    | _, _ => .ok st

/-- The emitted config message of updateConfig: the entire updated
document, tagged with the local identity. -/
def updateConfigEmit (selfId selfName : String) (cfg : CarConfiguration)
    (attr value : String) : RawMessage :=
  { kind := some "config", userId := some selfId, username := some selfName,
    x := none, y := none, field := none,
    config := some (updateConfigNext cfg attr value),
    comment := none, project := none }

/-- The presence sweep of the 4-second interval effect: keep exactly the
peers seen less than 12000 ms ago. -/
def sweep (now : Nat) (peers : List CursorPeer) : List CursorPeer :=
  peers.filter (fun peer => now - peer.lastSeen < 12000)

/-- A relay connection: socket id plus the optional room read from the
handshake query. -/
structure Conn where
  sid : String
  room : Option String
deriving DecidableEq, Repr

/-- The recipient set of the relay handler (socket-server.js and
pages/api/socket.ts): with a room, socket.to(room) reaches the other
members of that room; without one, socket.broadcast reaches every other
connected socket, whatever room it is in. -/
def relayRecipients (conns : List Conn) (sender : Conn) : List Conn :=
  match sender.room with
  | some r => conns.filter (fun c => c.sid != sender.sid && c.room == some r)
  | none => conns.filter (fun c => c.sid != sender.sid)

/-- One relay step: the message is re-emitted verbatim to each recipient. -/
def relayDeliveries (conns : List Conn) (sender : Conn) (msg : RawMessage) :
    List (Conn × RawMessage) :=
  (relayRecipients conns sender).map (fun c => (c, msg))

/-- True when the handler raised instead of returning a state. -/
def exceptThrew : Except String WorkspaceState → Bool
  | .error _ => true
  | .ok _ => false

/-- Peers after a handler run, falling back to the prior peers on a throw. -/
def resultPeers (st0 : WorkspaceState) : Except String WorkspaceState → List CursorPeer
  | .ok st => st.peers
  | .error _ => st0.peers

/-- Documents reachable by a participant of a session: an initial document
from createConfigFromVariant, local edits of updateConfig on attributes
offered for the current model, and accepted remote config events whose
document was itself produced by a participant running the same code. -/
inductive ConfigReach (models : List BaseModel) (variants : List VariantSpec) :
    CarConfiguration → Prop
  | init (modelName : String) (variantName : Option String) (cfg : CarConfiguration)
      (h : createConfigFromVariant models variants modelName variantName = some cfg) :
      ConfigReach models variants cfg
  | localEdit (cfg : CarConfiguration) (attr value : String)
      (hr : ConfigReach models variants cfg)
      (hattr : attr ∈ (getOptionsForModel models cfg.model).map (fun p => p.1)) :
      ConfigReach models variants (updateConfigNext cfg attr value)
  | remote (cfg incoming : CarConfiguration)
      (hr : ConfigReach models variants cfg)
      (hinc : ConfigReach models variants incoming) :
      ConfigReach models variants (applyRemoteConfig cfg incoming)

/-- Activity feeds reachable from the empty feed by pushActivity calls
with a nondecreasing clock; the index is the clock of the last push. -/
inductive FeedReach : Nat → List ActivityItem → Prop
  | nil : FeedReach 0 []
  | push (t now : Nat) (freshId message : String) (user : Option String)
      (items : List ActivityItem) (h : FeedReach t items) (hle : t ≤ now) :
      FeedReach now (pushActivity now freshId message user items)

theorem mem_of_head? {α : Type} {l : List α} {a : α} (h : l.head? = some a) : a ∈ l := by
  cases l with
  | nil => simp at h
  | cons b rest =>
    simp only [List.head?_cons, Option.some.injEq] at h
    exact h ▸ List.mem_cons_self b rest

theorem alistGet_cons_ne {α : Type} (p : String × α) (l : List (String × α)) (k : String)
    (h : ¬ p.1 = k) : alistGet (p :: l) k = alistGet l k := by
  simp [alistGet, List.find?_cons_of_neg, h]

theorem alistGet_alistSet_self {α : Type} (l : List (String × α)) (k : String) (v : α) :
    alistGet (alistSet l k v) k = some v := by
  induction l with
  | nil => simp [alistSet, alistGet]
  | cons p rest ih =>
    by_cases h : p.1 = k
    · simp [alistSet, alistGet, h]
    · rw [alistSet]
      simp only [beq_iff_eq, h, if_false]
      rw [alistGet_cons_ne p _ k h]
      exact ih

theorem alistGet_alistSet_ne {α : Type} (l : List (String × α)) (k k2 : String) (v : α)
    (h : ¬ k = k2) : alistGet (alistSet l k v) k2 = alistGet l k2 := by
  induction l with
  | nil => simp [alistSet, alistGet, h]
  | cons p rest ih =>
    by_cases hp : p.1 = k
    · rw [alistSet]
      simp only [beq_iff_eq, hp, if_true]
      rw [alistGet_cons_ne _ _ k2 h, alistGet_cons_ne p _ k2 (hp ▸ h)]
    · rw [alistSet]
      simp only [beq_iff_eq, hp, if_false]
      by_cases hq : p.1 = k2
      · simp [alistGet, List.find?_cons_of_pos, hq]
      · rw [alistGet_cons_ne p _ k2 hq, alistGet_cons_ne p _ k2 hq]
        exact ih

theorem alistKeys_alistSet_mem {α : Type} (l : List (String × α)) (k : String) (v : α)
    (h : k ∈ alistKeys l) : alistKeys (alistSet l k v) = alistKeys l := by
  induction l with
  | nil => simp [alistKeys] at h
  | cons p rest ih =>
    by_cases hp : p.1 = k
    · rw [alistSet]
      simp [alistKeys, hp]
    · rw [alistSet]
      simp only [beq_iff_eq, hp, if_false]
      have hm : k ∈ alistKeys rest := by
        rw [alistKeys_cons, List.mem_cons] at h
        rcases h with h | h
        · exact absurd h.symm hp
        · exact h
      rw [alistKeys_cons, alistKeys_cons, ih hm]

theorem alistKeys_alistSet_not_mem {α : Type} (l : List (String × α)) (k : String) (v : α)
    (h : k ∉ alistKeys l) : alistKeys (alistSet l k v) = alistKeys l ++ [k] := by
  induction l with
  | nil => simp [alistSet, alistKeys]
  | cons p rest ih =>
    have hp : ¬ p.1 = k := by
      intro he
      exact h (by simp [alistKeys, he])
    rw [alistSet]
    simp only [beq_iff_eq, hp, if_false]
    have hm : k ∉ alistKeys rest := by
      intro hmem
      exact h (by rw [alistKeys_cons, List.mem_cons]; right; exact hmem)
    rw [alistKeys_cons, alistKeys_cons, ih hm]
    rfl

theorem find?_name_self (models : List BaseModel) (m : BaseModel)
    (hd : (models.map (fun x => x.name)).Nodup) (hm : m ∈ models) :
    models.find? (fun x => x.name == m.name) = some m := by
  induction models with
  | nil => cases hm
  | cons a rest ih =>
    rw [List.map_cons, List.nodup_cons] at hd
    rcases List.mem_cons.mp hm with h | h
    · subst h
      exact List.find?_cons_of_pos rest (by simp)
    · have hne : ¬ a.name = m.name := by
        intro he
        exact hd.1 (he ▸ List.mem_map_of_mem (fun x => x.name) h)
      rw [List.find?_cons_of_neg rest (by simp [hne])]
      exact ih hd.2 h

theorem getBaseModel_mem (models : List BaseModel) (mn : String) (m : BaseModel)
    (h : getBaseModel models mn = some m) : m ∈ models := by
  unfold getBaseModel at h
  split at h
  · exact mem_of_head? h
  · split at h
    · rename_i m2 hf
      cases h
      exact List.mem_of_find?_eq_some hf
    · exact mem_of_head? h

theorem alistKeys_foldl_alistSet (f : String × List String → String) :
    ∀ (attrs : List (String × List String)) (sels : List (String × String)),
      (∀ a ∈ attrs.map (fun p => p.1), a ∉ alistKeys sels) →
      (attrs.map (fun p => p.1)).Nodup →
      alistKeys (attrs.foldl (fun acc ao => alistSet acc ao.1 (f ao)) sels)
        = alistKeys sels ++ attrs.map (fun p => p.1) := by
  intro attrs
  induction attrs with
  | nil => intro sels _ _; simp
  | cons ao rest ih =>
    intro sels hdisj hnd
    rw [List.map_cons, List.nodup_cons] at hnd
    have hao : ao.1 ∉ alistKeys sels :=
      hdisj ao.1 (by simp)
    have hkeys : alistKeys (alistSet sels ao.1 (f ao)) = alistKeys sels ++ [ao.1] :=
      alistKeys_alistSet_not_mem sels ao.1 (f ao) hao
    have hdisj2 : ∀ a ∈ rest.map (fun p => p.1), a ∉ alistKeys (alistSet sels ao.1 (f ao)) := by
      intro a ha
      rw [hkeys]
      intro hmem
      rcases List.mem_append.mp hmem with hm | hm
      · exact hdisj a (by simp only [List.map_cons, List.mem_cons]; right; exact ha) hm
      · rw [List.mem_singleton] at hm
        exact hnd.1 (hm ▸ ha)
    rw [List.foldl_cons, ih (alistSet sels ao.1 (f ao)) hdisj2 hnd.2, hkeys]
    simp

/-- C1: starting from a document produced by createConfigFromVariant, every
sequence of local edits (updateConfig on attributes of the current model)
and accepted remote config events carrying documents produced the same way
keeps the selections keyed by exactly the attributes of the document model,
one value per attribute, none missing and none extra. -/
theorem c1_selections_cover_model_attrs (models : List BaseModel) (variants : List VariantSpec)
    (hnames : (models.map (fun m => m.name)).Nodup)
    (hopts : ∀ m ∈ models, (m.options.map (fun p => p.1)).Nodup)
    (hne : ∀ m ∈ models, ¬ m.name = "")
    (cfg : CarConfiguration) (h : ConfigReach models variants cfg) :
    ∃ m, getBaseModel models cfg.model = some m ∧ m ∈ models ∧
      alistKeys cfg.selections = m.options.map (fun p => p.1) ∧
      (m.options.map (fun p => p.1)).Nodup := by
  induction h with
  | init mn vn cfg hc =>
    unfold createConfigFromVariant at hc
    rcases Option.map_eq_some'.mp hc with ⟨m0, hres, hcfg⟩
    have hmem : m0 ∈ models := getBaseModel_mem models mn m0 hres
    have hmodel : cfg.model = m0.name := by rw [← hcfg]
    have hres2 : getBaseModel models cfg.model = some m0 := by
      rw [hmodel]
      unfold getBaseModel
      rw [if_neg (hne m0 hmem), find?_name_self models m0 hnames hmem]
    refine ⟨m0, hres2, hmem, ?_, hopts m0 hmem⟩
    have hsel : cfg.selections = m0.options.foldl
        (fun acc ao => alistSet acc ao.1
          (((((vn.bind (fun v2 =>
              (variants.filter (fun v => v.model == mn)).find?
                (fun v => v.variantName == v2)))).bind
            (fun v => alistGet v.selections ao.1)).or ao.2.head?).getD "")) [] := by
      rw [← hcfg]
    rw [hsel]
    have := alistKeys_foldl_alistSet
      (fun ao => ((((vn.bind (fun v2 =>
          (variants.filter (fun v => v.model == mn)).find?
            (fun v => v.variantName == v2)))).bind
        (fun v => alistGet v.selections ao.1)).or ao.2.head?).getD "")
      m0.options [] (by intro a _ hmem2; simp [alistKeys] at hmem2) (hopts m0 hmem)
    rw [this]
    simp [alistKeys]
  | localEdit cfg attr value hr hattr ih =>
    obtain ⟨m, hres, hmem, hkeys, hnd⟩ := ih
    have hmodel : (updateConfigNext cfg attr value).model = cfg.model := rfl
    have hattr2 : attr ∈ alistKeys cfg.selections := by
      rw [hkeys]
      unfold getOptionsForModel at hattr
      rw [hres] at hattr
      exact hattr
    refine ⟨m, by rw [hmodel]; exact hres, hmem, ?_, hnd⟩
    show alistKeys (alistSet cfg.selections attr value) = _
    rw [alistKeys_alistSet_mem cfg.selections attr value hattr2]
    exact hkeys
  | remote cfg incoming hr hinc ih1 ih2 =>
    exact ih2

/-- Witness universe for the C1 theorem. -/
def demoModels : List BaseModel :=
  [{ name := "Alpha", brand := "Zen", basePrice := 100,
     options := [("color", ["blue", "red"]), ("roof", ["steel"])] }]

/-- Witness document for the C1 theorem. -/
def demoCfg : CarConfiguration :=
  { model := "Alpha", brand := "Zen", basePrice := 100,
    selections := [("color", "blue"), ("roof", "steel")] }

/-- Witness for C1 at a concrete one-model universe. -/
theorem c1_selections_cover_model_attrs_witness :
    createConfigFromVariant demoModels [] "Alpha" none = some demoCfg ∧
    ∃ m, getBaseModel demoModels demoCfg.model = some m ∧ m ∈ demoModels ∧
      alistKeys demoCfg.selections = m.options.map (fun p => p.1) ∧
      (m.options.map (fun p => p.1)).Nodup :=
  ⟨by decide,
   c1_selections_cover_model_attrs demoModels [] (by decide) (by decide) (by decide)
     demoCfg (ConfigReach.init "Alpha" none demoCfg (by decide))⟩

theorem feed_invariant (t : Nat) (items : List ActivityItem) (h : FeedReach t items) :
    items.length ≤ 12 ∧ (∀ x ∈ items, x.timestamp ≤ t) ∧
      items.Pairwise (fun a b => b.timestamp ≤ a.timestamp) := by
  induction h with
  | nil => exact ⟨by simp, by simp, List.Pairwise.nil⟩
  | push t now fid msg user items hr hle ih =>
    obtain ⟨hlen, hbound, hsorted⟩ := ih
    have hbound2 : ∀ x ∈ items, x.timestamp ≤ now := fun x hx => le_trans (hbound x hx) hle
    cases items with
    | nil =>
      refine ⟨?_, ?_, ?_⟩ <;> simp [pushActivity]
    | cons latest rest =>
      unfold pushActivity
      simp only [List.head?_cons]
      by_cases hC : (latest.message == msg && latest.user == user &&
          decide (now - latest.timestamp < 1200)) = true
      · rw [if_pos hC]
        exact ⟨hlen, hbound2, hsorted⟩
      · rw [if_neg hC]
        refine ⟨?_, ?_, ?_⟩
        · rw [List.length_take]
          exact min_le_left _ _
        · intro x hx
          have hx2 := List.take_subset 12 _ hx
          rcases List.mem_cons.mp hx2 with h | h
          · subst h; exact le_refl now
          · exact hbound2 x h
        · exact List.Pairwise.sublist (List.take_sublist _ _)
            (List.pairwise_cons.mpr ⟨fun b hb => hbound2 b hb, hsorted⟩)

/-- C10: every feed reachable by pushActivity calls with a nondecreasing
clock has at most 12 entries ordered newest first, and a push repeating
the message and user of the newest entry less than 1.2 seconds after it
leaves the feed unchanged. -/
theorem c10_activity_feed_bounded_and_deduped :
    (∀ (t : Nat) (items : List ActivityItem), FeedReach t items →
      items.length ≤ 12 ∧ items.Pairwise (fun a b => b.timestamp ≤ a.timestamp)) ∧
    (∀ (now : Nat) (freshId message : String) (user : Option String)
        (latest : ActivityItem) (rest : List ActivityItem),
      latest.message = message → latest.user = user → now - latest.timestamp < 1200 →
      pushActivity now freshId message user (latest :: rest) = latest :: rest) := by
  constructor
  · intro t items h
    exact ⟨(feed_invariant t items h).1, (feed_invariant t items h).2.2⟩
  · intro now fid msg user latest rest h1 h2 h3
    unfold pushActivity
    simp only [List.head?_cons]
    rw [if_pos (by simp [h1, h2, h3])]

/-- Witness for C10 at a concrete one-push feed and a duplicate push. -/
theorem c10_activity_feed_bounded_and_deduped_witness :
    ((pushActivity 5 "a" "m" (some "u") []).length ≤ 12 ∧
      (pushActivity 5 "a" "m" (some "u") []).Pairwise
        (fun a b => b.timestamp ≤ a.timestamp)) ∧
    pushActivity 6 "b" "m" (some "u")
        [{ id := "a", message := "m", user := some "u", timestamp := 5 }]
      = [{ id := "a", message := "m", user := some "u", timestamp := 5 }] :=
  ⟨c10_activity_feed_bounded_and_deduped.1 5 _
      (FeedReach.push 0 5 "a" "m" (some "u") [] FeedReach.nil (Nat.zero_le 5)),
   c10_activity_feed_bounded_and_deduped.2 6 "b" "m" (some "u") _ [] rfl rfl (by decide)⟩

/-- C4 (amended): the sweep keeps exactly the peers seen strictly less
than 12000 ms before now, so it removes every peer whose lastSeen is 12 or
more seconds old, including the one at exactly 12 seconds; a peer swept 11
seconds after its update is still present, and one stale by more than 12
seconds is gone. -/
theorem c4_sweep_removes_stale_peers (peers : List CursorPeer) (now : Nat) :
    (∀ p, p ∈ sweep now peers ↔ p ∈ peers ∧ now - p.lastSeen < 12000) ∧
    (∀ p ∈ peers, 12000 < now - p.lastSeen → p ∉ sweep now peers) ∧
    (∀ p ∈ peers, p.lastSeen + 11000 = now → p ∈ sweep now peers) := by
  refine ⟨?_, ?_, ?_⟩
  · intro p
    simp [sweep, List.mem_filter]
  · intro p _ h hmem
    simp [sweep, List.mem_filter] at hmem
    omega
  · intro p hp h
    simp [sweep, List.mem_filter, hp]
    omega

/-- A concrete fresh peer used by the C4 witness. -/
def demoPeer : CursorPeer :=
  { id := "f", username := some "F", color := "#2563EB", x := none, y := none,
    lastSeen := 1000, focus := none }

/-- Witness for C4 at a one-peer registry swept at time 12000. -/
theorem c4_sweep_removes_stale_peers_witness :
    demoPeer ∈ sweep 12000 [demoPeer] ↔
      demoPeer ∈ [demoPeer] ∧ 12000 - demoPeer.lastSeen < 12000 :=
  (c4_sweep_removes_stale_peers [demoPeer] 12000).1 demoPeer

/-- C4 counterexample: a peer whose lastSeen equals now minus exactly 12
seconds does not predate now minus 12 seconds, yet the sweep removes it. -/
theorem c4_sweep_boundary_counterexample :
    ¬ (({ id := "p1", username := some "P", color := "#2563EB", x := none, y := none,
          lastSeen := 0, focus := none } : CursorPeer).lastSeen < 12000 - 12000) ∧
    sweep 12000
      [{ id := "p1", username := some "P", color := "#2563EB", x := none, y := none,
         lastSeen := 0, focus := none }] = [] := by
  decide

/-- C7 (amended): the relay re-emits every message verbatim, never to the
sending connection; with a room it reaches exactly the other members of
that room; without a room it reaches every other connected client,
room-scoped or not. -/
theorem c7_relay_verbatim_to_others (conns : List Conn) (sender : Conn) (msg : RawMessage) :
    (∀ d ∈ relayDeliveries conns sender msg, d.2 = msg) ∧
    (∀ c ∈ relayRecipients conns sender, ¬ c.sid = sender.sid) ∧
    (∀ r, sender.room = some r →
      ∀ c, c ∈ relayRecipients conns sender ↔
        c ∈ conns ∧ ¬ c.sid = sender.sid ∧ c.room = some r) ∧
    (sender.room = none →
      ∀ c, c ∈ relayRecipients conns sender ↔ c ∈ conns ∧ ¬ c.sid = sender.sid) := by
  refine ⟨?_, ?_, ?_, ?_⟩
  · intro d hd
    rcases List.mem_map.mp hd with ⟨c, _, hc⟩
    rw [← hc]
  · intro c hc
    unfold relayRecipients at hc
    rcases h : sender.room with _ | r <;> rw [h] at hc <;>
      simp [List.mem_filter, bne] at hc
    · exact hc.2
    · exact hc.2.1
  · intro r hroom c
    unfold relayRecipients
    rw [hroom]
    simp [List.mem_filter, bne, and_assoc]
  · intro hroom c
    unfold relayRecipients
    rw [hroom]
    simp [List.mem_filter, bne]

/-- Witness for C7 on a two-member room plus an outsider. -/
theorem c7_relay_verbatim_to_others_witness :
    ∀ c, c ∈ relayRecipients
        [{ sid := "A", room := some "p" }, { sid := "B", room := some "p" },
         { sid := "C", room := some "q" }]
        { sid := "A", room := some "p" } ↔
      c ∈ [({ sid := "A", room := some "p" } : Conn), { sid := "B", room := some "p" },
         { sid := "C", room := some "q" }] ∧ ¬ c.sid = "A" ∧ c.room = some "p" :=
  (c7_relay_verbatim_to_others
    [{ sid := "A", room := some "p" }, { sid := "B", room := some "p" },
     { sid := "C", room := some "q" }]
    { sid := "A", room := some "p" }
    { kind := none, userId := none, username := none, x := none, y := none,
      field := none, config := none, comment := none, project := none }).2.2.1 "p" rfl

/-- C7 counterexample: a sender that supplied no room identifier
broadcasts to a room-scoped connection as well, so the recipients are not
only the non-room-scoped ones. -/
theorem c7_broadcast_reaches_roomed_counterexample :
    ({ sid := "B", room := some "p" } : Conn) ∈
      relayRecipients [{ sid := "A", room := none }, { sid := "B", room := some "p" }]
        { sid := "A", room := none } ∧
    ({ sid := "B", room := some "p" } : Conn).room ≠ none := by
  decide

theorem length_sortByTimestamp (l : List CommentItem) :
    (sortByTimestamp l).length = l.length :=
  (List.perm_insertionSort tsLe l).length_eq

theorem countP_not_add {α : Type} (p : α → Bool) (l : List α) :
    l.countP p + l.countP (fun a => !(p a)) = l.length := by
  induction l with
  | nil => simp
  | cons a rest ih =>
    by_cases h : p a = true
    · rw [List.countP_cons_of_pos _ _ h, List.countP_cons_of_neg _ _ (by simp [h]),
        List.length_cons]
      omega
    · rw [List.countP_cons_of_neg _ _ h, List.countP_cons_of_pos _ _ (by simp [h]),
        List.length_cons]
      omega

theorem countP_id_filter_zero (T : List CommentItem) (c : CommentItem) :
    (T.filter (fun item => item.id != c.id)).countP (fun item => item.id == c.id) = 0 := by
  rw [List.countP_eq_zero]
  intro a ha
  have h := (List.mem_filter.mp ha).2
  simp only [bne_iff_ne, ne_eq] at h
  simp [h]

theorem countP_id_presort_one (T : List CommentItem) (c : CommentItem) :
    (sortByTimestamp (T.filter (fun item => item.id != c.id) ++ [c])).countP
      (fun item => item.id == c.id) = 1 := by
  unfold sortByTimestamp
  rw [(List.perm_insertionSort tsLe _).countP_eq, List.countP_append,
    countP_id_filter_zero, List.countP_singleton]
  simp

theorem countP_upsertThread_le_one (T : List CommentItem) (c : CommentItem) :
    (upsertThread T c).countP (fun item => item.id == c.id) ≤ 1 := by
  have h1 : (upsertThread T c).countP (fun item => item.id == c.id) ≤
      (sortByTimestamp (T.filter (fun item => item.id != c.id) ++ [c])).countP
        (fun item => item.id == c.id) :=
    (List.take_sublist 30 _).countP_le _
  rw [countP_id_presort_one] at h1
  exact h1

theorem length_upsertThread_le (T : List CommentItem) (c : CommentItem) :
    (upsertThread T c).length ≤ 30 := by
  unfold upsertThread
  rw [List.length_take]
  exact min_le_left _ _

theorem upsertThread_twice_length (T : List CommentItem) (c : CommentItem) :
    (upsertThread (upsertThread T c) c).length = (upsertThread T c).length := by
  have hfun : (fun item : CommentItem => item.id != c.id)
      = (fun a : CommentItem => !(a.id == c.id)) := rfl
  have hlen1 : (upsertThread T c).length ≤ 30 := length_upsertThread_le T c
  have hcount : (upsertThread T c).countP (fun item => item.id == c.id) ≤ 1 :=
    countP_upsertThread_le_one T c
  have hcle : (upsertThread T c).countP (fun item => item.id == c.id) ≤
      (upsertThread T c).length := List.countP_le_length _
  have hadd := countP_not_add (fun item : CommentItem => item.id == c.id) (upsertThread T c)
  have hfl : ((upsertThread T c).filter (fun item => item.id != c.id)).length
      = (upsertThread T c).length - (upsertThread T c).countP (fun item => item.id == c.id) := by
    rw [← List.countP_eq_length_filter, hfun]
    omega
  have hlen2 : (upsertThread (upsertThread T c) c).length =
      min 30 (((upsertThread T c).filter (fun item => item.id != c.id)).length + 1) := by
    conv_lhs => rw [upsertThread]
    rw [List.length_take, length_sortByTimestamp, List.length_append,
      List.length_singleton]
  rcases Nat.le_one_iff_eq_zero_or_eq_one.mp hcount with h0 | h1
  · have h30 : (upsertThread T c).length = 30 := by
      by_contra hne30
      have hlt : (upsertThread T c).length < 30 := lt_of_le_of_ne hlen1 hne30
      have hall : (sortByTimestamp (T.filter (fun item => item.id != c.id) ++ [c])).length
          ≤ 30 := by
        have : (upsertThread T c).length =
            min 30 (sortByTimestamp (T.filter
              (fun item => item.id != c.id) ++ [c])).length := by
          rw [upsertThread, List.length_take]
        omega
      have heq : upsertThread T c
          = sortByTimestamp (T.filter (fun item => item.id != c.id) ++ [c]) := by
        rw [upsertThread]
        exact List.take_of_length_le hall
      have := countP_id_presort_one T c
      rw [← heq, h0] at this
      exact absurd this (by omega)
    rw [hlen2, hfl, h0, h30]
    omega
  · rw [hlen2, hfl, h1]
    omega

/-- C8: the comment merge of upsertComment is idempotent by id: merging
the same comment twice leaves the thread of its attribute with the same
length as merging it once, and no thread ever holds two comments with the
id just merged. -/
theorem c8_comment_merge_idempotent_by_id
    (comments : List (String × List CommentItem)) (incoming : CommentItem) :
    ((alistGet (upsertComment (upsertComment comments incoming) incoming)
        incoming.attr).getD []).length
      = ((alistGet (upsertComment comments incoming) incoming.attr).getD []).length ∧
    ((alistGet (upsertComment comments incoming) incoming.attr).getD []).countP
      (fun item => item.id == incoming.id) ≤ 1 := by
  have hget1 : alistGet (upsertComment comments incoming) incoming.attr
      = some (upsertThread ((alistGet comments incoming.attr).getD []) incoming) := by
    unfold upsertComment
    exact alistGet_alistSet_self _ _ _
  have hget2 : alistGet (upsertComment (upsertComment comments incoming) incoming)
      incoming.attr
      = some (upsertThread ((alistGet (upsertComment comments incoming)
          incoming.attr).getD []) incoming) := by
    conv_lhs => rw [upsertComment]
    exact alistGet_alistSet_self _ _ _
  rw [hget2, hget1]
  constructor
  · exact upsertThread_twice_length _ incoming
  · exact countP_upsertThread_le_one _ incoming

/-- C9: after a comment merge the thread of the merged attribute holds at
most 30 comments sorted ascending by timestamp; exactly the 30 earliest of
the merged list are kept, every kept comment having a timestamp at most
that of every dropped one; other attributes are untouched. -/
theorem c9_thread_bounded_sorted_keeps_earliest
    (comments : List (String × List CommentItem)) (incoming : CommentItem) :
    ((alistGet (upsertComment comments incoming) incoming.attr).getD []).length ≤ 30 ∧
    List.Sorted tsLe ((alistGet (upsertComment comments incoming) incoming.attr).getD []) ∧
    ((alistGet (upsertComment comments incoming) incoming.attr).getD [] =
      (sortByTimestamp (((alistGet comments incoming.attr).getD []).filter
        (fun item => item.id != incoming.id) ++ [incoming])).take 30) ∧
    (∀ x ∈ (alistGet (upsertComment comments incoming) incoming.attr).getD [],
      ∀ y ∈ (sortByTimestamp (((alistGet comments incoming.attr).getD []).filter
          (fun item => item.id != incoming.id) ++ [incoming])).drop 30,
        x.timestamp ≤ y.timestamp) ∧
    (∀ a, ¬ a = incoming.attr →
      alistGet (upsertComment comments incoming) a = alistGet comments a) := by
  have hget1 : alistGet (upsertComment comments incoming) incoming.attr
      = some (upsertThread ((alistGet comments incoming.attr).getD []) incoming) := by
    unfold upsertComment
    exact alistGet_alistSet_self _ _ _
  have hsorted : List.Sorted tsLe (sortByTimestamp
      (((alistGet comments incoming.attr).getD []).filter
        (fun item => item.id != incoming.id) ++ [incoming])) :=
    List.sorted_insertionSort tsLe _
  refine ⟨?_, ?_, ?_, ?_, ?_⟩
  · rw [hget1]
    exact length_upsertThread_le _ incoming
  · rw [hget1]
    exact List.Pairwise.sublist (List.take_sublist 30 _) hsorted
  · rw [hget1]
    rfl
  · rw [hget1]
    intro x hx y hy
    have hp := hsorted
    rw [← List.take_append_drop 30 (sortByTimestamp
      (((alistGet comments incoming.attr).getD []).filter
        (fun item => item.id != incoming.id) ++ [incoming]))] at hp
    exact (List.pairwise_append.mp hp).2.2 x hx y hy
  · intro a ha
    unfold upsertComment
    exact alistGet_alistSet_ne _ _ _ _ (fun he => ha he.symm)

/-- A concrete comment used by the C9 witness. -/
def demoComment : CommentItem :=
  { id := "c1", attr := "color", user := "u", text := "note", timestamp := 10 }

/-- Witness for C9 on the empty comment map. -/
theorem c9_thread_bounded_sorted_keeps_earliest_witness :
    ((alistGet (upsertComment [] demoComment) demoComment.attr).getD []).length ≤ 30 ∧
    List.Sorted tsLe ((alistGet (upsertComment [] demoComment) demoComment.attr).getD []) :=
  ⟨(c9_thread_bounded_sorted_keeps_earliest [] demoComment).1,
   (c9_thread_bounded_sorted_keeps_earliest [] demoComment).2.1⟩

theorem getColorForId_mem (registry : List (String × String)) (id c : String)
    (h : alistGet registry id = some c) : getColorForId registry id = (c, registry) := by
  unfold getColorForId
  rw [h]

theorem getColorForId_not_mem (registry : List (String × String)) (id : String)
    (h : alistGet registry id = none) :
    getColorForId registry id =
      ((COLOR_PALETTE.find? (fun c =>
          !((registry.map (fun p => p.2)).contains c))).getD
        ("hsl(" ++ toString ((registry.length * 137) % 360) ++ " 70% 55%)"),
       registry ++ [(id,
        (COLOR_PALETTE.find? (fun c =>
          !((registry.map (fun p => p.2)).contains c))).getD
         ("hsl(" ++ toString ((registry.length * 137) % 360) ++ " 70% 55%)"))]) := by
  unfold getColorForId
  rw [h]

theorem alistGet_append_self (registry : List (String × String)) (id v : String)
    (h : alistGet registry id = none) : alistGet (registry ++ [(id, v)]) id = some v := by
  unfold alistGet at h ⊢
  rw [List.find?_append]
  rcases hf : registry.find? (fun p => p.1 == id) with _ | p
  · rw [hf]
    simp [List.find?_singleton]
  · rw [hf] at h
    simp at h

/-- C5 (amended): getColorForId is memoized, so an id keeps its colour
across calls within a session; while some palette colour is still unused a
new id receives a colour distinct from every assigned one; once every
palette colour is in use (which happens after 19 distinct ids, the
20-entry palette holding a duplicate) the colour is the HSL hue derived
from the registry size times 137 modulo 360, not from the id. -/
theorem c5_color_assignment (registry : List (String × String)) (id : String) :
    (∀ c, alistGet registry id = some c → getColorForId registry id = (c, registry)) ∧
    getColorForId (getColorForId registry id).2 id = getColorForId registry id ∧
    (alistGet registry id = none →
      (∃ c ∈ COLOR_PALETTE, c ∉ registry.map (fun p => p.2)) →
      (getColorForId registry id).1 ∉ registry.map (fun p => p.2)) ∧
    (alistGet registry id = none →
      (∀ c ∈ COLOR_PALETTE, c ∈ registry.map (fun p => p.2)) →
      (getColorForId registry id).1
        = "hsl(" ++ toString ((registry.length * 137) % 360) ++ " 70% 55%)") := by
  refine ⟨fun c h => getColorForId_mem registry id c h, ?_, ?_, ?_⟩
  · rcases h : alistGet registry id with _ | c
    · rw [getColorForId_not_mem registry id h]
      exact getColorForId_mem _ id _ (alistGet_append_self registry id _ h)
    · rw [getColorForId_mem registry id c h]
      exact getColorForId_mem registry id c h
  · intro h hex
    rw [getColorForId_not_mem registry id h]
    rcases hfind : COLOR_PALETTE.find? (fun c =>
        !((registry.map (fun p => p.2)).contains c)) with _ | c0
    · obtain ⟨c, hcPal, hcNot⟩ := hex
      have h2 := List.find?_eq_none.mp hfind c hcPal
      exact absurd (by simpa using h2) hcNot
    · have hc0 := List.find?_some hfind
      rw [hfind]
      simp only [Option.getD_some]
      simpa using hc0
  · intro h hall
    rw [getColorForId_not_mem registry id h]
    have hnone : COLOR_PALETTE.find? (fun c =>
        !((registry.map (fun p => p.2)).contains c)) = none := by
      rw [List.find?_eq_none]
      intro c hc
      simpa using hall c hc
    rw [hnone]
    rfl

/-- Witness for C5: a present id is stable and a fresh id with an unused
palette colour gets a colour distinct from every assigned one. -/
theorem c5_color_assignment_witness :
    getColorForId [("a", "#7C3AED")] "a" = ("#7C3AED", [("a", "#7C3AED")]) ∧
    (getColorForId [("a", "#7C3AED")] "b").1 ∉
      [("a", "#7C3AED")].map (fun p : String × String => p.2) :=
  ⟨(c5_color_assignment [("a", "#7C3AED")] "a").1 "#7C3AED" (by decide),
   (c5_color_assignment [("a", "#7C3AED")] "b").2.2.1 (by decide)
     ⟨"#2563EB", by decide, by decide⟩⟩

/-- The first 19 distinct ids of a session, in arrival order. -/
def demoIds : List String :=
  ["u0", "u1", "u2", "u3", "u4", "u5", "u6", "u7", "u8", "u9",
   "u10", "u11", "u12", "u13", "u14", "u15", "u16", "u17", "u18"]

/-- The colour registry after the 19 ids above were assigned colours. -/
def demoRegistry : List (String × String) :=
  demoIds.foldl (fun r i => (getColorForId r i).2) []

/-- C5 counterexample: after only 19 distinct ids the 20-entry palette is
exhausted (it holds a duplicate), so the 20th id gets a colour outside the
palette, and that fallback colour does not depend on the id at all. -/
theorem c5_palette_exhaustion_counterexample :
    (getColorForId demoRegistry "u19").1 = "hsl(83 70% 55%)" ∧
    "hsl(83 70% 55%)" ∉ COLOR_PALETTE ∧
    (getColorForId demoRegistry "zzz").1 = (getColorForId demoRegistry "u19").1 := by
  decide

/-- C2: a fingerprint accepted at t1 is recorded at the head of the cache
truncated to 32 entries; the same fingerprint re-submitted less than 1.5
seconds later is dropped with the cache untouched, and re-submitted 2
seconds later it is accepted again; the fingerprint of each event kind is
the stated function of kind, participant and payload. -/
theorem c2_dedup_window (cache : List (String × Nat)) (key : String) (t1 t2 t3 : Nat)
    (hacc : (dedupAccept cache key t1).1 = true) :
    (dedupAccept cache key t1).2 = ((key, t1) :: cache).take 32 ∧
    (t1 ≤ t2 → t2 - t1 < 1500 →
      dedupAccept (dedupAccept cache key t1).2 key t2
        = (false, (dedupAccept cache key t1).2)) ∧
    (t3 = t1 + 2000 → (dedupAccept (dedupAccept cache key t1).2 key t3).1 = true) ∧
    (∀ (uid : String) (raw : RawMessage),
      messageKey "cursor" uid raw
        = .ok ("cursor-" ++ uid ++ "-" ++ roundStr raw.x ++ "-" ++ roundStr raw.y)) ∧
    (∀ (uid : String) (raw : RawMessage),
      messageKey "focus" uid raw
        = .ok ("focus-" ++ uid ++ "-" ++ (raw.field.join.getD "null"))) ∧
    (∀ (uid : String) (raw : RawMessage) (c : CarConfiguration), raw.config = some c →
      messageKey "config" uid raw
        = .ok ("config-" ++ uid ++ "-" ++ stringifySelections c.selections)) ∧
    (∀ (uid : String) (raw : RawMessage) (cm : CommentItem), raw.comment = some cm →
      messageKey "comment" uid raw = .ok ("comment-" ++ uid ++ "-" ++ cm.id)) ∧
    (∀ (uid : String) (raw : RawMessage) (pm : PartialMeta), raw.project = some pm →
      messageKey "project-meta" uid raw
        = .ok ("meta-" ++ uid ++ "-" ++ String.intercalate "-" (metaKeys pm))) := by
  have hnone : cache.find? (fun e => e.1 == key && decide (t1 - e.2 < 1500)) = none := by
    rcases hf : cache.find? (fun e => e.1 == key && decide (t1 - e.2 < 1500)) with _ | e
    · exact hf
    · unfold dedupAccept at hacc
      rw [hf] at hacc
      simp at hacc
  have hc1 : (dedupAccept cache key t1).2 = ((key, t1) :: cache).take 32 := by
    unfold dedupAccept
    rw [hnone]
  have htake : ((key, t1) :: cache).take 32 = (key, t1) :: cache.take 31 := by
    show ((key, t1) :: cache).take (31 + 1) = (key, t1) :: cache.take 31
    rw [List.take_succ_cons]
  refine ⟨hc1, ?_, ?_, fun uid raw => rfl, fun uid raw => rfl, ?_, ?_, ?_⟩
  · intro _ hlt
    rw [hc1, htake]
    have hfound : ((key, t1) :: cache.take 31).find?
        (fun e => e.1 == key && decide (t2 - e.2 < 1500)) = some (key, t1) :=
      List.find?_cons_of_pos _ (by simp [hlt])
    unfold dedupAccept
    rw [hfound]
  · intro ht3
    subst ht3
    rw [hc1, htake]
    have hfnone : ((key, t1) :: cache.take 31).find?
        (fun e => e.1 == key && decide (t1 + 2000 - e.2 < 1500)) = none := by
      rw [List.find?_eq_none]
      intro e he
      rcases List.mem_cons.mp he with h | h
      · subst h
        simp only [Bool.and_eq_true, beq_iff_eq, decide_eq_true_eq, not_and]
        intro _
        omega
      · have he2 : e ∈ cache := List.take_subset 31 cache h
        have hprev := List.find?_eq_none.mp hnone e he2
        simp only [Bool.and_eq_true, beq_iff_eq, decide_eq_true_eq, not_and] at hprev ⊢
        intro hkey
        have h1500 := hprev hkey
        omega
    unfold dedupAccept
    rw [hfnone]
  · intro uid raw c h
    simp [messageKey, h]
  · intro uid raw cm h
    simp [messageKey, h]
  · intro uid raw pm h
    simp [messageKey, h]

/-- Witness for C2 at an empty cache, with re-submissions after 1 second
and after 2 seconds. -/
theorem c2_dedup_window_witness :
    (dedupAccept ([] : List (String × Nat)) "k" 0).1 = true ∧
    dedupAccept (dedupAccept ([] : List (String × Nat)) "k" 0).2 "k" 1000
      = (false, (dedupAccept ([] : List (String × Nat)) "k" 0).2) ∧
    (dedupAccept (dedupAccept ([] : List (String × Nat)) "k" 0).2 "k" 2000).1 = true := by
  have h := c2_dedup_window [] "k" 0 1000 2000 (by decide)
  exact ⟨by decide, h.2.1 (by decide) (by decide), h.2.2.1 rfl⟩

theorem handleIncoming_config_accept (selfId : String) (now : Nat) (freshId : String)
    (st : WorkspaceState) (uid uname : String) (c : CarConfiguration)
    (hne : ¬ uid = selfId)
    (hdd : st.recentMessages.find? (fun e =>
      e.1 == ("config-" ++ uid ++ "-" ++ stringifySelections c.selections)
        && decide (now - e.2 < 1500)) = none) :
    handleIncoming selfId now freshId st (Payload.obj
      { kind := some "config", userId := some uid, username := some uname,
        x := none, y := none, field := none, config := some c,
        comment := none, project := none })
      = .ok { st with
          recentMessages := ((("config-" ++ uid ++ "-" ++ stringifySelections c.selections),
            now) :: st.recentMessages).take 32
          hasRemoteConfig := true
          config := c
          activity := pushActivity now freshId (uname ++ " adjusted the build")
            (some uname) st.activity
          synced := true } := by
  have hkey : messageKey "config" uid
      { kind := some "config", userId := some uid, username := some uname,
        x := none, y := none, field := none, config := some c,
        comment := none, project := none }
      = Except.ok ("config-" ++ uid ++ "-" ++ stringifySelections c.selections) := by
    simp [messageKey]
  have hdd2 : dedupAccept st.recentMessages
      ("config-" ++ uid ++ "-" ++ stringifySelections c.selections) now
      = (true, ((("config-" ++ uid ++ "-" ++ stringifySelections c.selections), now)
          :: st.recentMessages).take 32) := by
    unfold dedupAccept
    rw [hdd]
  simp only [handleIncoming]
  rw [if_neg hne, hkey]
  simp [hdd2, applyMessage, applyRemoteConfig, jsStr]

/-- C3 (amended): the config event emitted when A sets color to red
carries the entire updated document of A; B accepting it replaces the
whole document of B with that document (last write wins), so color reads
red afterwards, and the other attributes equal the values of A, hence are
unchanged from the prior document of B exactly when B previously held the
pre-edit document of A. -/
theorem c3_config_event_last_write_wins (selfA nameA : String) (cfgA : CarConfiguration)
    (selfB : String) (now : Nat) (freshId : String) (stB : WorkspaceState)
    (hne : ¬ selfA = selfB)
    (hdd : stB.recentMessages.find? (fun e =>
      e.1 == ("config-" ++ selfA ++ "-" ++ stringifySelections
        (updateConfigNext cfgA "color" "red").selections)
        && decide (now - e.2 < 1500)) = none) :
    (updateConfigEmit selfA nameA cfgA "color" "red").config
      = some (updateConfigNext cfgA "color" "red") ∧
    ∃ stB2, handleIncoming selfB now freshId stB
        (Payload.obj (updateConfigEmit selfA nameA cfgA "color" "red")) = .ok stB2 ∧
      stB2.config = updateConfigNext cfgA "color" "red" ∧
      alistGet stB2.config.selections "color" = some "red" ∧
      (stB.config = cfgA → ∀ a, ¬ a = "color" →
        alistGet stB2.config.selections a = alistGet stB.config.selections a) := by
  refine ⟨rfl, _,
    handleIncoming_config_accept selfB now freshId stB selfA nameA
      (updateConfigNext cfgA "color" "red") hne hdd, rfl, ?_, ?_⟩
  · exact alistGet_alistSet_self cfgA.selections "color" "red"
  · intro hsync a ha
    rw [hsync]
    exact alistGet_alistSet_ne cfgA.selections "color" a "red" (fun he => ha he.symm)

/-- The pre-edit document of A used in the C3 witness and counterexample. -/
def demoCfgA : CarConfiguration :=
  { model := "M", brand := "Z", basePrice := 100,
    selections := [("color", "blue"), ("roof", "steel")] }

/-- The prior document of B, with a roof different from the one of A. -/
def demoCfgB : CarConfiguration :=
  { model := "M", brand := "Z", basePrice := 100,
    selections := [("color", "blue"), ("roof", "glass")] }

/-- The project meta of the concrete demo state. -/
def demoMeta : ProjectMeta :=
  { title := "T", description := none, baseModel := "Alpha" }

/-- A concrete workspace state of B whose roof differs from the one of A. -/
def demoState : WorkspaceState :=
  { config := demoCfgB, peers := [], colorRegistry := [], activity := [],
    comments := [], projectMeta := demoMeta, recentMessages := [],
    hasRemoteConfig := false, synced := false }

/-- Witness for C3 at concrete participants and state. -/
theorem c3_config_event_last_write_wins_witness :
    ∃ stB2, handleIncoming "B" 50 "f" demoState
        (Payload.obj (updateConfigEmit "A" "Alice" demoCfgA "color" "red")) = .ok stB2 ∧
      stB2.config = updateConfigNext demoCfgA "color" "red" ∧
      alistGet stB2.config.selections "color" = some "red" ∧
      (demoState.config = demoCfgA → ∀ a, ¬ a = "color" →
        alistGet stB2.config.selections a = alistGet demoState.config.selections a) :=
  (c3_config_event_last_write_wins "A" "Alice" demoCfgA "B" 50 "f" demoState
    (by decide) (by decide)).2

/-- Document after a handler run, falling back to the prior one on a throw. -/
def resultConfig (st0 : WorkspaceState) : Except String WorkspaceState → CarConfiguration
  | .ok st => st.config
  | .error _ => st0.config

/-- C3 counterexample: B holds roof glass while A holds roof steel; the
config event produced by A setting color to red leaves B with roof steel,
so an attribute other than color changed from the prior document of B. -/
theorem c3_replaces_other_attributes_counterexample :
    alistGet demoState.config.selections "roof" = some "glass" ∧
    alistGet (resultConfig demoState (handleIncoming "B" 50 "f" demoState
      (Payload.obj (updateConfigEmit "A" "Alice" demoCfgA "color" "red")))).selections
      "roof" = some "steel" ∧
    alistGet (resultConfig demoState (handleIncoming "B" 50 "f" demoState
      (Payload.obj (updateConfigEmit "A" "Alice" demoCfgA "color" "red")))).selections
      "color" = some "red" := by
  decide

/-- C6 (amended): the only validation before the apply step is the shape
guard of isCollabMessage, that the payload is an object carrying kind and
userId; payloads failing it, and self-echoes, are dropped silently with
the state untouched.  Nothing kind-specific is checked. -/
theorem c6_guard_only_validation (selfId : String) (now : Nat) (freshId : String)
    (st : WorkspaceState) :
    handleIncoming selfId now freshId st Payload.notObject = .ok st ∧
    (∀ raw : RawMessage, raw.kind = none ∨ raw.userId = none →
      handleIncoming selfId now freshId st (Payload.obj raw) = .ok st) ∧
    (∀ raw : RawMessage, raw.userId = some selfId →
      handleIncoming selfId now freshId st (Payload.obj raw) = .ok st) ∧
    (∀ p : Payload, isCollabMessage p = false →
      handleIncoming selfId now freshId st p = .ok st) := by
  have hguard : ∀ raw : RawMessage, raw.kind = none ∨ raw.userId = none →
      handleIncoming selfId now freshId st (Payload.obj raw) = .ok st := by
    intro raw h
    obtain ⟨k, u, un, x, y, f, cf, cm, pj⟩ := raw
    rcases h with h | h
    · simp only at h
      subst h
      rfl
    · simp only at h
      subst h
      cases k <;> rfl
  have hself : ∀ raw : RawMessage, raw.userId = some selfId →
      handleIncoming selfId now freshId st (Payload.obj raw) = .ok st := by
    intro raw h
    obtain ⟨k, u, un, x, y, f, cf, cm, pj⟩ := raw
    simp only at h
    subst h
    cases k with
    | none => rfl
    | some k2 =>
      show (if selfId = selfId then Except.ok st else _) = Except.ok st
      rw [if_pos rfl]
  refine ⟨rfl, hguard, hself, ?_⟩
  intro p h
  cases p with
  | notObject => rfl
  | obj raw =>
    rcases hk : raw.kind with _ | k
    · exact hguard raw (Or.inl hk)
    · rcases hu : raw.userId with _ | u
      · exact hguard raw (Or.inr hu)
      · simp [isCollabMessage, hk, hu] at h

/-- A payload that is an object with only kind and userId set. -/
def emptyishRaw : RawMessage :=
  { kind := none, userId := none, username := none, x := none, y := none,
    field := none, config := none, comment := none, project := none }

/-- Witness for C6: a non-object payload and an object without kind are
both dropped with the state untouched. -/
theorem c6_guard_only_validation_witness :
    handleIncoming "me" 0 "f" demoState Payload.notObject = .ok demoState ∧
    handleIncoming "me" 0 "f" demoState (Payload.obj emptyishRaw) = .ok demoState :=
  ⟨(c6_guard_only_validation "me" 0 "f" demoState).1,
   (c6_guard_only_validation "me" 0 "f" demoState).2.1 emptyishRaw (Or.inl rfl)⟩

/-- A comment event whose comment payload is missing. -/
def commentMissingRaw : RawMessage :=
  { kind := some "comment", userId := some "u2", username := some "U", x := none,
    y := none, field := none, config := none, comment := none, project := none }

/-- A cursor event whose coordinates are missing. -/
def cursorMissingRaw : RawMessage :=
  { kind := some "cursor", userId := some "u3", username := some "U", x := none,
    y := none, field := none, config := none, comment := none, project := none }

/-- C6 counterexample: both payloads pass the guard; the comment event
missing its comment throws a TypeError to the caller, and the cursor event
missing x and y is applied to the peer registry rather than dropped. -/
theorem c6_no_kind_specific_validation_counterexample :
    isCollabMessage (Payload.obj commentMissingRaw) = true ∧
    exceptThrew (handleIncoming "me" 0 "f" demoState (Payload.obj commentMissingRaw))
      = true ∧
    exceptThrew (handleIncoming "me" 0 "f" demoState (Payload.obj cursorMissingRaw))
      = false ∧
    resultPeers demoState (handleIncoming "me" 0 "f" demoState
      (Payload.obj cursorMissingRaw)) ≠ demoState.peers := by
  decide

end CollabCar
